import Mathlib

/-!
Shallow embedding of the OOPlab12 repository (pet/owner and staff
record-keeping CLIs backed by SQLite) together with proofs about its
repository operations and table formatters.

The embedding models a database file as an explicit value:

* a table is a list of rows, in rowid (insertion) order;
* `INTEGER PRIMARY KEY AUTOINCREMENT` columns are modelled by a strictly
  increasing counter carried in the state (`nextPostId`, `nextOwnerId`, ...);
  SQLite guarantees that a freshly assigned id is larger than every id that
  ever existed in the table, and rows are never deleted in this codebase;
* `ORDER BY <text column>` uses SQLite's default BINARY collation, which is
  a memcmp on the UTF-8 encoding; that order coincides with lexicographic
  order on code points, modelled by `lexLe` below;
* a Python function that raises is modelled with `Except`;
* the console output of the display helpers is modelled as the list of
  printed lines (`render` joins them the way `print` does).
-/

namespace OOPlab

/-- SQLite BINARY collation on TEXT values: lexicographic comparison of the
UTF-8 encodings, which coincides with lexicographic comparison of the code
points of the two strings. -/
def lexLe : List Char → List Char → Bool
  | [], _ => true
  | _ :: _, [] => false
  | a :: as, b :: bs =>
    if a.toNat < b.toNat then true
    else if a.toNat = b.toNat then lexLe as bs
    else false

theorem lexLe_total (a b : List Char) : lexLe a b = true ∨ lexLe b a = true := by
  induction a generalizing b with
  | nil => left; rfl
  | cons x xs ih =>
    cases b with
    | nil => right; rfl
    | cons y ys =>
      rcases Nat.lt_trichotomy x.toNat y.toNat with h | h | h
      · left; simp [lexLe, h]
      · rcases ih ys with h2 | h2
        · left; simp [lexLe, h, h2]
        · right; simp [lexLe, h.symm, h2]
      · right; simp [lexLe, h]

theorem lexLe_trans (a b c : List Char) (h1 : lexLe a b = true)
    (h2 : lexLe b c = true) : lexLe a c = true := by
  induction a generalizing b c with
  | nil => rfl
  | cons x xs ih =>
    cases b with
    | nil => simp [lexLe] at h1
    | cons y ys =>
      cases c with
      | nil => simp [lexLe] at h2
      | cons z zs =>
        simp only [lexLe] at h1 h2 ⊢
        split_ifs at h1 h2 ⊢ <;> first
          | rfl
          | omega
          | (exact ih ys zs h1 h2)

/-! ### Data model of `examples/example1.py` (staff registry)

Tables `posts(post_id, post_title)` and
`workers(worker_id, worker_name, post_id, worker_year)`; the `Worker`
dataclass returned by queries carries no database id, only
`(name, post, year)` where `post` is the joined `post_title`. -/

/-- Row of the `posts` table / the `Post` dataclass. -/
structure Post where
  id : Int
  title : String
deriving DecidableEq

/-- Row of the `workers` table (the schema columns; the repository never
returns raw worker rows). -/
structure WorkerRow where
  id : Int
  name : String
  post_id : Int
  year : Int
deriving DecidableEq

/-- The `Worker` dataclass: it has no id field, only the projected columns
of the join. -/
structure Worker where
  name : String
  post : String
  year : Int
deriving DecidableEq

/-- State of the staff database file. -/
structure StaffDB where
  posts : List Post
  workers : List WorkerRow
  nextPostId : Int
  nextWorkerId : Int
deriving DecidableEq

/-- Schema-level well-formedness of a staff database: primary-key ids are
unique and below the autoincrement counter, and (the invariant documented in
the spec, not enforced by `example1.py`, which never enables SQLite
foreign-key checking) every worker references an existing post. -/
def StaffWF (db : StaffDB) : Prop :=
  (∀ p ∈ db.posts, p.id < db.nextPostId) ∧
  db.posts.Pairwise (fun a b => a.id ≠ b.id) ∧
  (∀ w ∈ db.workers, ∃ p ∈ db.posts, p.id = w.post_id)

instance (db : StaffDB) : Decidable (StaffWF db) := by
  unfold StaffWF; infer_instance

/-- `StaffRepository.get_or_create_post`: `SELECT post_id FROM posts WHERE
post_title = ?` takes the first matching row; on absence, `INSERT INTO posts
(post_title) VALUES (?)` and return `cursor.lastrowid`. -/
def get_or_create_post (db : StaffDB) (title : String) : Int × StaffDB :=
  match db.posts.find? (fun p => p.title == title) with
  | some p => (p.id, db)
  | none =>
      (db.nextPostId,
       { db with
          posts := db.posts ++ [⟨db.nextPostId, title⟩],
          nextPostId := db.nextPostId + 1 })

/-- `StaffRepository.add_worker`: resolves the post id via
`get_or_create_post`, then `INSERT INTO workers (worker_name, post_id,
worker_year) VALUES (?, ?, ?)`. -/
def add_worker (db : StaffDB) (name post : String) (year : Int) : StaffDB :=
  let r := get_or_create_post db post
  { r.2 with
      workers := r.2.workers ++ [⟨r.2.nextWorkerId, name, r.1, year⟩],
      nextWorkerId := r.2.nextWorkerId + 1 }

/-- `StaffRepository.get_all_workers`: `SELECT workers.worker_name,
posts.post_title, workers.worker_year FROM workers INNER JOIN posts ON
posts.post_id = workers.post_id` — a nested loop over `workers` (outer) and
the matching `posts` rows, no ORDER BY. -/
def get_all_workers (db : StaffDB) : List Worker :=
  db.workers.flatMap (fun w =>
    (db.posts.filter (fun p => p.id == w.post_id)).map
      (fun p => ⟨w.name, p.title, w.year⟩))

/-- `StaffRepository.select_by_period`: same join as `get_all_workers` with
`WHERE (strftime(..., date(..)) - workers.worker_year) >= ?`; the SQLite date
function yields the current year, passed here as the `currentYear`
parameter. -/
def select_by_period (db : StaffDB) (currentYear period : Int) : List Worker :=
  db.workers.flatMap (fun w =>
    ((db.posts.filter (fun p => p.id == w.post_id)).map
      (fun p => (⟨w.name, p.title, w.year⟩ : Worker))).filter
      (fun r => decide (period ≤ currentYear - r.year)))

/-! ### Data model of `src/zad1.py` and `src/zad2.py` (pet registry)

Both variants use the same schema: `owners(owner_id, owner_name,
owner_phone)` and `pets(pet_id, pet_name, pet_species, pet_breed, pet_age,
owner_id REFERENCES owners)`. `zad1` talks to SQLite directly with
`PRAGMA foreign_keys = ON`; `zad2` goes through an object-relational mapper
over the same tables. The `Owner`/`OwnerData` and `Pet`/`PetData`
dataclasses of the two variants are field-for-field identical, so one Lean
structure serves both. -/

/-- The `Owner` (zad1) / `OwnerData` (zad2) dataclass and the `owners`
table row. -/
structure Owner where
  id : Int
  name : String
  phone : String
deriving DecidableEq

/-- The `Pet` (zad1) / `PetData` (zad2) dataclass and the `pets` table
row. -/
structure Pet where
  id : Int
  name : String
  species : String
  breed : String
  age : Int
  owner_id : Int
deriving DecidableEq

/-- State of the pets database file (shared schema of both variants). -/
structure PetsDB where
  owners : List Owner
  pets : List Pet
  nextOwnerId : Int
  nextPetId : Int
deriving DecidableEq

/-- Errors raised by the repository operations: `ownerNotFound` is the
`ValueError` raised by zad2 after its explicit existence check,
`fkViolation` is the `sqlite3.IntegrityError` signalled by SQLite foreign-key
enforcement in zad1, and `storage` stands for a generic storage-engine
error (`sqlite3.Error` / SQLAlchemy exception). -/
inductive RepoError where
  | ownerNotFound (id : Int)
  | fkViolation
  | storage (msg : String)
deriving DecidableEq

/-- Order on `Owner` used by `ORDER BY owner_name` (BINARY collation). -/
def ownerNameLe (a b : Owner) : Prop := lexLe a.name.data b.name.data = true

instance : DecidableRel ownerNameLe := fun _ _ => instDecidableEqBool _ _

instance : IsTotal Owner ownerNameLe :=
  ⟨fun a b => lexLe_total a.name.data b.name.data⟩

instance : IsTrans Owner ownerNameLe :=
  ⟨fun a b c => lexLe_trans a.name.data b.name.data c.name.data⟩

/-- Order on `Pet` used by `ORDER BY pet_name` (BINARY collation). -/
def petNameLe (a b : Pet) : Prop := lexLe a.name.data b.name.data = true

instance : DecidableRel petNameLe := fun _ _ => instDecidableEqBool _ _

instance : IsTotal Pet petNameLe :=
  ⟨fun a b => lexLe_total a.name.data b.name.data⟩

instance : IsTrans Pet petNameLe :=
  ⟨fun a b c => lexLe_trans a.name.data b.name.data c.name.data⟩

/-- zad1 `PetRepository.add_owner`: `INSERT INTO owners (owner_name,
owner_phone) VALUES (?, ?)`; the AUTOINCREMENT primary key assigns the next
counter value. -/
def zad1_add_owner (db : PetsDB) (name phone : String) : PetsDB :=
  { db with
      owners := db.owners ++ [⟨db.nextOwnerId, name, phone⟩],
      nextOwnerId := db.nextOwnerId + 1 }

/-- zad1 `PetRepository.add_pet`: a bare `INSERT INTO pets ... VALUES
(?, ?, ?, ?, ?)`. The connection runs `PRAGMA foreign_keys = ON`, so SQLite
rejects the insert with an `IntegrityError` when `owner_id` matches no
`owners` row; otherwise the row is inserted and committed. -/
def zad1_add_pet (db : PetsDB) (name species breed : String)
    (age owner_id : Int) : Except RepoError PetsDB :=
  if db.owners.any (fun o => o.id == owner_id) then
    .ok { db with
            pets := db.pets ++ [⟨db.nextPetId, name, species, breed, age, owner_id⟩],
            nextPetId := db.nextPetId + 1 }
  else
    .error .fkViolation

/-- zad1 `PetRepository.get_all_owners`: `SELECT ... FROM owners ORDER BY
owner_name`. -/
def zad1_get_all_owners (db : PetsDB) : List Owner :=
  List.insertionSort ownerNameLe db.owners

/-- zad1 `PetRepository.get_all_pets`: `SELECT p.* FROM pets p ORDER BY
p.pet_name` — no join with `owners`; the returned records carry the stored
`owner_id` column only. -/
def zad1_get_all_pets (db : PetsDB) : List Pet :=
  List.insertionSort petNameLe db.pets

/-- zad1 `PetRepository.get_pets_by_owner`: `SELECT p.* FROM pets p WHERE
p.owner_id = ? ORDER BY p.pet_name`; no existence check on the owner. -/
def zad1_get_pets_by_owner (db : PetsDB) (owner_id : Int) : List Pet :=
  List.insertionSort petNameLe
    (db.pets.filter (fun p => p.owner_id == owner_id))

/-- zad1 `PetRepository.get_owner_by_id`: `SELECT ... FROM owners WHERE
owner_id = ?` with `fetchone`, returning `None` on absence. -/
def zad1_get_owner_by_id (db : PetsDB) (owner_id : Int) : Option Owner :=
  db.owners.find? (fun o => o.id == owner_id)

/-- zad2 `PetRepository.add_owner`: `session.add(OwnerModel(...))` then
commit; the integer primary key assigns the next rowid. -/
def zad2_add_owner (db : PetsDB) (name phone : String) : PetsDB :=
  { db with
      owners := db.owners ++ [⟨db.nextOwnerId, name, phone⟩],
      nextOwnerId := db.nextOwnerId + 1 }

/-- zad2 `PetRepository.add_pet`: queries the owner by id first and raises
`ValueError` when it does not exist (nothing is committed); otherwise adds
the pet row and commits. -/
def zad2_add_pet (db : PetsDB) (name species breed : String)
    (age owner_id : Int) : Except RepoError PetsDB :=
  match db.owners.find? (fun o => o.id == owner_id) with
  | none => .error (.ownerNotFound owner_id)
  | some _ =>
      .ok { db with
              pets := db.pets ++ [⟨db.nextPetId, name, species, breed, age, owner_id⟩],
              nextPetId := db.nextPetId + 1 }

/-- zad2 `PetRepository.get_all_owners`: query ordered by
`OwnerModel.name`. -/
def zad2_get_all_owners (db : PetsDB) : List Owner :=
  List.insertionSort ownerNameLe db.owners

/-- zad2 `PetRepository.get_all_pets`: query ordered by `PetModel.name`. -/
def zad2_get_all_pets (db : PetsDB) : List Pet :=
  List.insertionSort petNameLe db.pets

/-- zad2 `PetRepository.get_pets_by_owner`: raises `ValueError` when no
owner has the given id; otherwise `filter_by(owner_id=...)` ordered by
`PetModel.name`. -/
def zad2_get_pets_by_owner (db : PetsDB) (owner_id : Int) :
    Except RepoError (List Pet) :=
  match db.owners.find? (fun o => o.id == owner_id) with
  | none => .error (.ownerNotFound owner_id)
  | some _ =>
      .ok (List.insertionSort petNameLe
            (db.pets.filter (fun p => p.owner_id == owner_id)))

/-- zad2 `PetRepository.get_owner_by_id`: `filter_by(id=...).first()`,
`None` on absence. -/
def zad2_get_owner_by_id (db : PetsDB) (owner_id : Int) : Option Owner :=
  db.owners.find? (fun o => o.id == owner_id)

/-- The `add_pet` branch of zad1's `main`: it checks
`repo.get_owner_by_id(owner)` first and prints a not-found message without
inserting; otherwise it calls `repo.add_pet` and prints a confirmation, and
any `sqlite3.Error` is caught and printed (the Python message also embeds
the exception text). Returns the printed message and the final database
state. -/
def zad1_main_add_pet (db : PetsDB) (name species breed : String)
    (age owner_id : Int) : String × PetsDB :=
  match zad1_get_owner_by_id db owner_id with
  | none =>
      ("Ошибка: Владелец с ID " ++ toString owner_id ++ " не найден!", db)
  | some _ =>
      match zad1_add_pet db name species breed age owner_id with
      | .ok db2 =>
          ("Животное \u0027" ++ name ++ "\u0027 успешно добавлено!", db2)
      | .error _ => ("Ошибка при добавлении животного", db)

/-- The `add_pet` branch of zad2's `main`: calls `repo.add_pet` directly;
a `ValueError` (owner not found) is caught and printed as
`"Ошибка: <exception text>"`, other exceptions print a generic message (the
Python messages also embed the exception text); an exception leaves the
database unchanged. -/
def zad2_main_add_pet (db : PetsDB) (name species breed : String)
    (age owner_id : Int) : String × PetsDB :=
  match zad2_add_pet db name species breed age owner_id with
  | .ok db2 =>
      ("Животное \u0027" ++ name ++ "\u0027 успешно добавлено!", db2)
  | .error (.ownerNotFound i) =>
      ("Ошибка: Владелец с ID " ++ toString i ++ " не найден", db)
  | .error _ => ("Ошибка при добавлении животного", db)

/-! ### Table formatters

Python's `'{:^w}'.format(v)` centers `str(v)` in a field of `w` characters:
if the string is at least `w` long it is left untouched, otherwise
`pad / 2` spaces go on the left and the rest on the right. A display
function is modelled as the list of lines it prints; `render` is the
resulting console output (each `print` appends a newline). -/

/-- A run of `n` dash characters, as in `'-' * n`. -/
def dashes (n : Nat) : String := String.mk (List.replicate n '-')

/-- Python `'{:^w}'.format(s)` for the default space fill. -/
def center (w : Nat) (s : String) : String :=
  if w ≤ s.length then s
  else
    String.mk (List.replicate ((w - s.length) / 2) ' ') ++ s ++
      String.mk (List.replicate ((w - s.length) - (w - s.length) / 2) ' ')

/-- Console output of printing the given lines in order. -/
def render : List String → String
  | [] => ""
  | l :: ls => l ++ "\n" ++ render ls

/-- Border line of the owners table. -/
def ownerLine : String :=
  "+" ++ dashes 6 ++ "+" ++ dashes 25 ++ "+" ++ dashes 15 ++ "+"

/-- One formatted row of the owners table:
`'| {:^6} | {:^25} | {:^15} |'.format(a, b, c)`. -/
def ownerRowStr (a b c : String) : String :=
  "| " ++ center 6 a ++ " | " ++ center 25 b ++ " | " ++ center 15 c ++ " |"

/-- `display_owners` (identical in zad1 and zad2), as its list of printed
lines. -/
def display_owners (owners : List Owner) : List String :=
  match owners with
  | [] => ["Список владельцев пуст."]
  | _ :: _ =>
      [ownerLine, ownerRowStr "ID" "Имя владельца" "Телефон", ownerLine] ++
        owners.map (fun o => ownerRowStr (toString o.id) o.name o.phone) ++
        [ownerLine]

/-- Border line of the six-column pets table (`show_owner=True`). -/
def petLine6 : String :=
  "+" ++ dashes 6 ++ "+" ++ dashes 15 ++ "+" ++ dashes 15 ++ "+" ++
    dashes 20 ++ "+" ++ dashes 6 ++ "+" ++ dashes 15 ++ "+"

/-- One formatted row of the six-column pets table. -/
def petRow6 (a b c d e f : String) : String :=
  "| " ++ center 6 a ++ " | " ++ center 15 b ++ " | " ++ center 15 c ++
    " | " ++ center 20 d ++ " | " ++ center 6 e ++ " | " ++ center 15 f ++ " |"

/-- Border line of the five-column pets table (`show_owner=False`). -/
def petLine5 : String :=
  "+" ++ dashes 6 ++ "+" ++ dashes 15 ++ "+" ++ dashes 15 ++ "+" ++
    dashes 20 ++ "+" ++ dashes 6 ++ "+"

/-- One formatted row of the five-column pets table. -/
def petRow5 (a b c d e : String) : String :=
  "| " ++ center 6 a ++ " | " ++ center 15 b ++ " | " ++ center 15 c ++
    " | " ++ center 20 d ++ " | " ++ center 6 e ++ " |"

/-- `display_pets` (identical in zad1 and zad2), as its list of printed
lines. -/
def display_pets (pets : List Pet) (show_owner : Bool) : List String :=
  match pets with
  | [] => ["Список животных пуст."]
  | _ :: _ =>
      if show_owner then
        [petLine6,
         petRow6 "ID" "Кличка" "Вид" "Порода" "Возраст" "ID владельца",
         petLine6] ++
          pets.map (fun p =>
            petRow6 (toString p.id) p.name p.species p.breed
              (toString p.age) (toString p.owner_id)) ++
          [petLine6]
      else
        [petLine5,
         petRow5 "ID" "Кличка" "Вид" "Порода" "Возраст",
         petLine5] ++
          pets.map (fun p =>
            petRow5 (toString p.id) p.name p.species p.breed
              (toString p.age)) ++
          [petLine5]

/-- Border line of the workers table. -/
def workerLine : String :=
  "+" ++ dashes 6 ++ "+" ++ dashes 32 ++ "+" ++ dashes 22 ++ "+" ++
    dashes 10 ++ "+"

/-- One formatted row of the workers table:
`'| {:^6} | {:^30} | {:^20} | {:^8} |'.format(a, b, c, d)`. -/
def workerRowStr (a b c d : String) : String :=
  "| " ++ center 6 a ++ " | " ++ center 30 b ++ " | " ++ center 20 c ++
    " | " ++ center 8 d ++ " |"

/-- `display_workers` of `example1.py`, as its list of printed lines: the
first column is `enumerate(workers, 1)`, the 1-based position in the input
list. -/
def display_workers (workers : List Worker) : List String :=
  match workers with
  | [] => ["Список работников пуст."]
  | _ :: _ =>
      [workerLine, workerRowStr "№" "Ф.И.О." "Должность" "Год", workerLine] ++
        workers.enum.map (fun iw =>
          workerRowStr (toString (iw.1 + 1)) iw.2.name iw.2.post
            (toString iw.2.year)) ++
        [workerLine]

/-! ### Substring containment -/

/-- The second string occurs as a contiguous substring of the first. -/
def SContains (hay sub : String) : Prop := sub.data <:+: hay.data

instance (hay sub : String) : Decidable (SContains hay sub) :=
  List.decidableInfix sub.data hay.data

/-- Boolean form of `SContains`. -/
def scontainsB (hay sub : String) : Bool := decide (SContains hay sub)

theorem string_data_append (a b : String) :
    (a ++ b).data = a.data ++ b.data := rfl

theorem infix_part_here (p s t : List Char) : s <:+: p ++ (s ++ t) := by
  simpa only [List.append_assoc] using List.infix_append p s t

theorem infix_part_there (p : List Char) {s t : List Char}
    (h : s <:+: t) : s <:+: p ++ t := by
  obtain ⟨u, v, rfl⟩ := h
  exact ⟨p ++ u, v, by simp [List.append_assoc]⟩

theorem scontains_append_left {b s : String} (a : String)
    (h : SContains b s) : SContains (a ++ b) s := by
  unfold SContains at *
  rw [string_data_append]
  exact infix_part_there a.data h

theorem scontains_trans {a b c : String}
    (h1 : SContains a b) (h2 : SContains b c) : SContains a c :=
  List.IsInfix.trans h2 h1

theorem scontains_center (w : Nat) (s : String) : SContains (center w s) s := by
  unfold center SContains
  split
  · exact List.infix_refl _
  · rw [string_data_append, string_data_append]
    exact List.infix_append _ _ _

theorem scontains_render_of_mem {lines : List String} {l : String}
    (h : l ∈ lines) : SContains (render lines) l := by
  induction lines with
  | nil => cases h
  | cons x xs ih =>
      rcases List.mem_cons.mp h with rfl | h2
      · unfold SContains render
        rw [string_data_append, string_data_append]
        exact ⟨[], "\n".data ++ (render xs).data, by simp [List.append_assoc]⟩
      · unfold render
        exact scontains_append_left (x ++ "\n") (ih h2)

/-! ### Helper lemmas about `get_or_create_post` and the join -/

theorem gocp_workers (db : StaffDB) (t : String) :
    (get_or_create_post db t).2.workers = db.workers := by
  unfold get_or_create_post
  cases db.posts.find? (fun p => p.title == t) <;> rfl

theorem gocp_nextWorkerId (db : StaffDB) (t : String) :
    (get_or_create_post db t).2.nextWorkerId = db.nextWorkerId := by
  unfold get_or_create_post
  cases db.posts.find? (fun p => p.title == t) <;> rfl

theorem gocp_posts_mono (db : StaffDB) (t : String) :
    ∀ p ∈ db.posts, p ∈ (get_or_create_post db t).2.posts := by
  unfold get_or_create_post
  cases db.posts.find? (fun p => p.title == t) with
  | none => exact fun p hp => List.mem_append_left _ hp
  | some q => exact fun p hp => hp

theorem gocp_id_exists (db : StaffDB) (t : String) :
    ∃ p ∈ (get_or_create_post db t).2.posts,
      p.id = (get_or_create_post db t).1 := by
  unfold get_or_create_post
  cases hf : db.posts.find? (fun p => p.title == t) with
  | some q => exact ⟨q, List.mem_of_find?_eq_some hf, rfl⟩
  | none =>
      exact ⟨⟨db.nextPostId, t⟩,
        List.mem_append_right _ (List.mem_singleton.mpr rfl), rfl⟩

theorem gocp_wf (db : StaffDB) (t : String) (hwf : StaffWF db) :
    StaffWF (get_or_create_post db t).2 := by
  obtain ⟨hbound, hnd, href⟩ := hwf
  cases hf : db.posts.find? (fun p => p.title == t) with
  | some q =>
      simp only [get_or_create_post, hf]
      exact ⟨hbound, hnd, href⟩
  | none =>
      simp only [get_or_create_post, hf]
      refine ⟨?_, ?_, ?_⟩
      · intro p hp
        rcases List.mem_append.mp hp with h | h
        · have := hbound p h
          simp only []
          omega
        · rw [List.mem_singleton.mp h]
          simp only []
          omega
      · simp only []
        rw [List.pairwise_append]
        refine ⟨hnd, List.pairwise_singleton _ _, ?_⟩
        intro a ha b hb
        rw [List.mem_singleton.mp hb]
        have := hbound a ha
        intro hcontra
        simp only [] at hcontra
        omega
      · intro w hw
        simp only [] at hw
        obtain ⟨p, hp, hpid⟩ := href w hw
        exact ⟨p, List.mem_append_left _ hp, hpid⟩

/-- In a list whose ids are pairwise distinct, filtering on the id of a
member returns exactly that member. -/
theorem filter_id_singleton {posts : List Post}
    (hnd : posts.Pairwise (fun a b => a.id ≠ b.id))
    {p : Post} (hp : p ∈ posts) :
    posts.filter (fun q => q.id == p.id) = [p] := by
  induction posts with
  | nil => cases hp
  | cons x xs ih =>
      obtain ⟨hhead, htail⟩ := List.pairwise_cons.mp hnd
      rcases List.mem_cons.mp hp with rfl | hmem
      · have hnil : xs.filter (fun q => q.id == p.id) = [] := by
          rw [List.filter_eq_nil_iff]
          intro b hb
          simpa using (hhead b hb).symm
        simp [List.filter_cons, hnil]
      · have hne : (x.id == p.id) = false := by
          simpa using hhead p hmem
        simpa [List.filter_cons, hne] using ih htail hmem

/-- The inner join of `workers` with `posts` produces, for each worker in
order, exactly one output record carrying its name, its post's title and
its year — provided post ids are unique and every worker references an
existing post. -/
theorem join_forall2 (posts : List Post) (workers : List WorkerRow)
    (hnd : posts.Pairwise (fun a b => a.id ≠ b.id))
    (href : ∀ w ∈ workers, ∃ p ∈ posts, p.id = w.post_id) :
    List.Forall₂ (fun (w : WorkerRow) (r : Worker) =>
        r.name = w.name ∧ r.year = w.year ∧
        ∃ p ∈ posts, p.id = w.post_id ∧ r.post = p.title)
      workers
      (workers.flatMap (fun w =>
        (posts.filter (fun p => p.id == w.post_id)).map
          (fun p => ⟨w.name, p.title, w.year⟩))) := by
  induction workers with
  | nil => exact List.Forall₂.nil
  | cons w ws ih =>
      obtain ⟨p, hpmem, hpid⟩ := href w (List.mem_cons_self w ws)
      have hfilter : posts.filter (fun q => q.id == w.post_id) = [p] := by
        rw [← hpid]
        exact filter_id_singleton hnd hpmem
      rw [List.flatMap_cons, hfilter, List.map_singleton, List.singleton_append]
      exact List.Forall₂.cons ⟨rfl, rfl, p, hpmem, hpid, rfl⟩
        (ih (fun v hv => href v (List.mem_cons_of_mem w hv)))

/-! ### Claim C2 -/

/-- Claim C2: on any schema-valid database state, `get_or_create_post`
called twice in sequence with the same title returns the same id both
times, and called in sequence with two different titles returns two
different ids. -/
theorem claim_C2_get_or_create_post_idempotent_and_injective
    (db : StaffDB) (t1 t2 : String) (hwf : StaffWF db) :
    (get_or_create_post (get_or_create_post db t1).2 t1).1 =
      (get_or_create_post db t1).1 ∧
    (t1 ≠ t2 →
      (get_or_create_post (get_or_create_post db t1).2 t2).1 ≠
        (get_or_create_post db t1).1) := by
  obtain ⟨hbound, hnd, -⟩ := hwf
  constructor
  · cases hfind : db.posts.find? (fun p => p.title == t1) with
    | some p => simp [get_or_create_post, hfind]
    | none => simp [get_or_create_post, hfind]
  · intro h12
    cases hfind : db.posts.find? (fun p => p.title == t1) with
    | some p =>
        have hpmem := List.mem_of_find?_eq_some hfind
        have hpt : p.title = t1 := by simpa using List.find?_some hfind
        cases hfind2 : db.posts.find? (fun p => p.title == t2) with
        | some q =>
            have hqmem := List.mem_of_find?_eq_some hfind2
            have hqt : q.title = t2 := by simpa using List.find?_some hfind2
            have hqp : q ≠ p := by
              intro he
              exact h12 (by rw [← hpt, ← hqt, he])
            have hid : q.id ≠ p.id :=
              hnd.forall (fun _ _ h => Ne.symm h) hqmem hpmem hqp
            simpa [get_or_create_post, hfind, hfind2] using hid
        | none =>
            have := hbound p hpmem
            simp [get_or_create_post, hfind, hfind2]
            omega
    | none =>
        cases hfind2 : db.posts.find? (fun p => p.title == t2) with
        | some q =>
            have hqmem := List.mem_of_find?_eq_some hfind2
            have := hbound q hqmem
            simp [get_or_create_post, hfind, hfind2, h12]
            omega
        | none =>
            simp [get_or_create_post, hfind, hfind2, h12]

/-- Witness for claim C2 at the empty staff database with titles
distinct. -/
theorem claim_C2_witness :
    StaffWF ⟨[], [], 1, 1⟩ ∧
    (get_or_create_post (get_or_create_post ⟨[], [], 1, 1⟩ "Инженер").2
        "Инженер").1 = (get_or_create_post ⟨[], [], 1, 1⟩ "Инженер").1 ∧
    (get_or_create_post (get_or_create_post ⟨[], [], 1, 1⟩ "Инженер").2
        "Техник").1 ≠ (get_or_create_post ⟨[], [], 1, 1⟩ "Инженер").1 :=
  ⟨by decide,
   (claim_C2_get_or_create_post_idempotent_and_injective
      ⟨[], [], 1, 1⟩ "Инженер" "Техник" (by decide)).1,
   (claim_C2_get_or_create_post_idempotent_and_injective
      ⟨[], [], 1, 1⟩ "Инженер" "Техник" (by decide)).2 (by decide)⟩

/-! ### Claim C10 -/

/-- Claim C10: `add_worker` always inserts a worker row whose `post_id`
references an existing post, because it uses the id returned by
`get_or_create_post`; and both mutating repository operations preserve the
invariant that every worker row references an existing post (together with
schema well-formedness), so the insert can never hit a referential-integrity
failure. -/
theorem claim_C10_add_worker_preserves_referential_integrity
    (db : StaffDB) (name post : String) (year : Int) (hwf : StaffWF db) :
    (∃ w ∈ (add_worker db name post year).workers,
        w.name = name ∧ w.year = year ∧
        ∃ p ∈ (add_worker db name post year).posts, p.id = w.post_id) ∧
    StaffWF (get_or_create_post db post).2 ∧
    StaffWF (add_worker db name post year) := by
  have hwf1 : StaffWF (get_or_create_post db post).2 := gocp_wf db post hwf
  obtain ⟨hbound1, hnd1, href1⟩ := hwf1
  have hid := gocp_id_exists db post
  refine ⟨?_, ⟨hbound1, hnd1, href1⟩, ?_⟩
  · refine ⟨⟨(get_or_create_post db post).2.nextWorkerId, name,
      (get_or_create_post db post).1, year⟩, ?_, rfl, rfl, ?_⟩
    · unfold add_worker
      exact List.mem_append_right _ (List.mem_singleton.mpr rfl)
    · obtain ⟨p, hp, hpid⟩ := hid
      exact ⟨p, hp, hpid⟩
  · refine ⟨hbound1, hnd1, ?_⟩
    intro w hw
    unfold add_worker at hw
    rcases List.mem_append.mp hw with h | h
    · exact href1 w h
    · rw [List.mem_singleton.mp h]
      exact hid

/-- Witness for claim C10 at a concrete well-formed database. -/
theorem claim_C10_witness :
    StaffWF ⟨[⟨1, "Инженер"⟩], [⟨1, "Иванов", 1, 2015⟩], 2, 2⟩ ∧
    StaffWF (add_worker ⟨[⟨1, "Инженер"⟩], [⟨1, "Иванов", 1, 2015⟩], 2, 2⟩
      "Петров" "Техник" 2020) :=
  ⟨by decide,
   (claim_C10_add_worker_preserves_referential_integrity
      ⟨[⟨1, "Инженер"⟩], [⟨1, "Иванов", 1, 2015⟩], 2, 2⟩
      "Петров" "Техник" 2020 (by decide)).2.2⟩

/-! ### Claim C4 -/

/-- A staff database state expressible in the schema (`example1.py` never
turns on SQLite foreign-key enforcement, so a worker row whose `post_id`
matches no post can be stored): one worker referencing the nonexistent
post id 5. -/
def danglingStaffDB : StaffDB := ⟨[], [⟨1, "Иванов", 5, 2015⟩], 1, 2⟩

/-- Counterexample to claim C4 as stated: on a database state containing a
worker row whose `post_id` matches no post, `get_all_workers` (an INNER
JOIN) drops the row, so not every stored child row appears in the result. -/
theorem claim_C4_counterexample :
    danglingStaffDB.workers.length = 1 ∧
    get_all_workers danglingStaffDB = [] := ⟨rfl, rfl⟩

/-- Claim C4, amended: on states satisfying the documented invariant (unique
post ids, every worker referencing an existing post), `get_all_workers`
returns one joined record per worker row, in order, carrying the post's
title (unordered variant); and in the zad1 pet variant `get_all_pets`
returns every stored pet row exactly once (a permutation of the table),
sorted by pet name — those records carry the stored `owner_id` but are not
joined with owner attributes. -/
theorem claim_C4_amended_list_all
    (db : StaffDB) (dbp : PetsDB) (hwf : StaffWF db) :
    List.Forall₂ (fun (w : WorkerRow) (r : Worker) =>
        r.name = w.name ∧ r.year = w.year ∧
        ∃ p ∈ db.posts, p.id = w.post_id ∧ r.post = p.title)
      db.workers (get_all_workers db) ∧
    (zad1_get_all_pets dbp).Perm dbp.pets ∧
    List.Sorted petNameLe (zad1_get_all_pets dbp) := by
  refine ⟨?_, ?_, ?_⟩
  · exact join_forall2 db.posts db.workers hwf.2.1 hwf.2.2
  · exact List.perm_insertionSort petNameLe dbp.pets
  · exact List.sorted_insertionSort petNameLe dbp.pets

/-- Witness for the amended claim C4 at a concrete well-formed database. -/
theorem claim_C4_witness :
    StaffWF ⟨[⟨1, "Инженер"⟩], [⟨1, "Иванов", 1, 2015⟩], 2, 2⟩ ∧
    List.Forall₂ (fun (w : WorkerRow) (r : Worker) =>
        r.name = w.name ∧ r.year = w.year ∧
        ∃ p ∈ (⟨[⟨1, "Инженер"⟩], [⟨1, "Иванов", 1, 2015⟩], 2, 2⟩ :
          StaffDB).posts, p.id = w.post_id ∧ r.post = p.title)
      (⟨[⟨1, "Инженер"⟩], [⟨1, "Иванов", 1, 2015⟩], 2, 2⟩ : StaffDB).workers
      (get_all_workers ⟨[⟨1, "Инженер"⟩], [⟨1, "Иванов", 1, 2015⟩], 2, 2⟩) ∧
    (zad1_get_all_pets ⟨[], [⟨1, "Барсик", "Кошка", "Британская", 3, 1⟩], 1, 2⟩).Perm
      (⟨[], [⟨1, "Барсик", "Кошка", "Британская", 3, 1⟩], 1, 2⟩ : PetsDB).pets :=
  ⟨by decide,
   (claim_C4_amended_list_all ⟨[⟨1, "Инженер"⟩], [⟨1, "Иванов", 1, 2015⟩], 2, 2⟩
      ⟨[], [⟨1, "Барсик", "Кошка", "Британская", 3, 1⟩], 1, 2⟩ (by decide)).1,
   (claim_C4_amended_list_all ⟨[⟨1, "Инженер"⟩], [⟨1, "Иванов", 1, 2015⟩], 2, 2⟩
      ⟨[], [⟨1, "Барсик", "Кошка", "Британская", 3, 1⟩], 1, 2⟩ (by decide)).2.1⟩

/-! ### Claim C6 -/

/-- Claim C6: for every database state, every current year and every
threshold, `select_by_period` returns exactly the joined worker records
whose derived age `currentYear - year` meets or exceeds the threshold: it
equals the filtered join, and a joined record is in the result iff it is in
`get_all_workers` and passes the threshold. -/
theorem claim_C6_select_by_period_filters_by_age
    (db : StaffDB) (currentYear period : Int) :
    select_by_period db currentYear period =
      (get_all_workers db).filter
        (fun r => decide (period ≤ currentYear - r.year)) ∧
    ∀ r : Worker,
      r ∈ select_by_period db currentYear period ↔
        (r ∈ get_all_workers db ∧ period ≤ currentYear - r.year) := by
  have heq : select_by_period db currentYear period =
      (get_all_workers db).filter
        (fun r => decide (period ≤ currentYear - r.year)) := by
    unfold select_by_period get_all_workers
    rw [List.filter_flatMap]
  refine ⟨heq, fun r => ?_⟩
  rw [heq, List.mem_filter]
  simp

/-! ### Claim C1 -/

/-- Claim C1: for every database state and every pet insert whose owner id
matches no owner row, the add-pet operation is rejected with an error
distinct from a generic storage error (zad2 raises the not-found
`ValueError`; zad1's SQLite connection signals a foreign-key
`IntegrityError`; zad1's command dispatcher short-circuits with a not-found
message), and in both dispatchers the pets table is unchanged afterwards. -/
theorem claim_C1_add_pet_nonexistent_owner_rejected
    (db : PetsDB) (name species breed : String) (age oid : Int)
    (hnone : ∀ o ∈ db.owners, o.id ≠ oid) :
    zad2_add_pet db name species breed age oid =
      .error (.ownerNotFound oid) ∧
    zad1_add_pet db name species breed age oid = .error .fkViolation ∧
    (zad2_main_add_pet db name species breed age oid).2.pets = db.pets ∧
    (zad1_main_add_pet db name species breed age oid).2.pets = db.pets ∧
    (zad1_main_add_pet db name species breed age oid).1 =
      "Ошибка: Владелец с ID " ++ toString oid ++ " не найден!" := by
  have hfind : db.owners.find? (fun o => o.id == oid) = none := by
    rw [List.find?_eq_none]
    intro o ho
    simpa using hnone o ho
  have hany : db.owners.any (fun o => o.id == oid) = false := by
    rw [List.any_eq_false]
    intro o ho
    simpa using hnone o ho
  refine ⟨?_, ?_, ?_, ?_, ?_⟩
  · simp [zad2_add_pet, hfind]
  · simp [zad1_add_pet, hany]
  · simp [zad2_main_add_pet, zad2_add_pet, hfind]
  · simp [zad1_main_add_pet, zad1_get_owner_by_id, hfind]
  · simp [zad1_main_add_pet, zad1_get_owner_by_id, hfind]

/-- Witness for claim C1 at the empty pets database and owner id 1. -/
theorem claim_C1_witness :
    zad2_add_pet ⟨[], [], 1, 1⟩ "Барсик" "Кошка" "Британская" 3 1 =
      .error (.ownerNotFound 1) ∧
    zad1_add_pet ⟨[], [], 1, 1⟩ "Барсик" "Кошка" "Британская" 3 1 =
      .error .fkViolation ∧
    (zad2_main_add_pet ⟨[], [], 1, 1⟩ "Барсик" "Кошка" "Британская" 3 1).2.pets =
      (⟨[], [], 1, 1⟩ : PetsDB).pets ∧
    (zad1_main_add_pet ⟨[], [], 1, 1⟩ "Барсик" "Кошка" "Британская" 3 1).2.pets =
      (⟨[], [], 1, 1⟩ : PetsDB).pets ∧
    (zad1_main_add_pet ⟨[], [], 1, 1⟩ "Барсик" "Кошка" "Британская" 3 1).1 =
      "Ошибка: Владелец с ID " ++ toString (1 : Int) ++ " не найден!" :=
  claim_C1_add_pet_nonexistent_owner_rejected
    ⟨[], [], 1, 1⟩ "Барсик" "Кошка" "Британская" 3 1 (by decide)

/-! ### Claim C3 -/

/-- Counterexample to claim C3 as stated: the two repository variants do not
have equivalent error behavior on every input. On the fresh (empty) database
and owner id 1, zad1's `get_pets_by_owner` returns the empty list while
zad2's raises the not-found `ValueError`. -/
theorem claim_C3_counterexample :
    zad1_get_pets_by_owner ⟨[], [], 1, 1⟩ 1 = [] ∧
    zad2_get_pets_by_owner ⟨[], [], 1, 1⟩ 1 =
      .error (.ownerNotFound 1) := ⟨rfl, rfl⟩

/-- Claim C3, amended: the two repositories agree exactly on `add_owner`,
`get_all_owners`, `get_all_pets` and `get_owner_by_id`; `add_pet` succeeds
identically when the owner exists and is rejected by both when it does not,
though with different error kinds (foreign-key violation vs. not-found);
`get_pets_by_owner` agrees when the owner exists, while on a nonexistent
owner zad1 returns the filtered list and zad2 raises (the counterexample
above). -/
theorem claim_C3_amended_repository_equivalence
    (db : PetsDB) (name species breed phone : String) (age oid : Int) :
    zad1_add_owner db name phone = zad2_add_owner db name phone ∧
    zad1_get_all_owners db = zad2_get_all_owners db ∧
    zad1_get_all_pets db = zad2_get_all_pets db ∧
    zad1_get_owner_by_id db oid = zad2_get_owner_by_id db oid ∧
    ((∃ o ∈ db.owners, o.id = oid) →
      zad1_add_pet db name species breed age oid =
        zad2_add_pet db name species breed age oid ∧
      zad2_get_pets_by_owner db oid =
        .ok (zad1_get_pets_by_owner db oid)) ∧
    ((∀ o ∈ db.owners, o.id ≠ oid) →
      zad1_add_pet db name species breed age oid = .error .fkViolation ∧
      zad2_add_pet db name species breed age oid =
        .error (.ownerNotFound oid)) := by
  refine ⟨rfl, rfl, rfl, rfl, ?_, ?_⟩
  · rintro ⟨o, ho, hid⟩
    have hany : db.owners.any (fun o => o.id == oid) = true := by
      rw [List.any_eq_true]
      exact ⟨o, ho, by simp [hid]⟩
    cases hf : db.owners.find? (fun o => o.id == oid) with
    | none =>
        exact absurd hid (by simpa using List.find?_eq_none.mp hf o ho)
    | some o2 =>
        constructor
        · simp [zad1_add_pet, zad2_add_pet, hany, hf]
        · simp [zad2_get_pets_by_owner, zad1_get_pets_by_owner, hf]
  · intro hnone
    have h := claim_C1_add_pet_nonexistent_owner_rejected
      db name species breed age oid hnone
    exact ⟨h.2.1, h.1⟩

/-- Witness for the amended claim C3 at a database with one owner,
exercising both the owner-exists and the owner-missing branch. -/
theorem claim_C3_witness :
    zad1_add_pet ⟨[⟨1, "Иван", "+79991234567"⟩], [], 2, 1⟩
        "Барсик" "Кошка" "Британская" 3 1 =
      zad2_add_pet ⟨[⟨1, "Иван", "+79991234567"⟩], [], 2, 1⟩
        "Барсик" "Кошка" "Британская" 3 1 ∧
    zad2_get_pets_by_owner ⟨[⟨1, "Иван", "+79991234567"⟩], [], 2, 1⟩ 1 =
      .ok (zad1_get_pets_by_owner ⟨[⟨1, "Иван", "+79991234567"⟩], [], 2, 1⟩ 1) ∧
    zad1_add_pet ⟨[⟨1, "Иван", "+79991234567"⟩], [], 2, 1⟩
        "Барсик" "Кошка" "Британская" 3 2 = .error .fkViolation ∧
    zad2_add_pet ⟨[⟨1, "Иван", "+79991234567"⟩], [], 2, 1⟩
        "Барсик" "Кошка" "Британская" 3 2 = .error (.ownerNotFound 2) :=
  ⟨((claim_C3_amended_repository_equivalence
      ⟨[⟨1, "Иван", "+79991234567"⟩], [], 2, 1⟩
      "Барсик" "Кошка" "Британская" "" 3 1).2.2.2.2.1 (by decide)).1,
   ((claim_C3_amended_repository_equivalence
      ⟨[⟨1, "Иван", "+79991234567"⟩], [], 2, 1⟩
      "Барсик" "Кошка" "Британская" "" 3 1).2.2.2.2.1 (by decide)).2,
   ((claim_C3_amended_repository_equivalence
      ⟨[⟨1, "Иван", "+79991234567"⟩], [], 2, 1⟩
      "Барсик" "Кошка" "Британская" "" 3 2).2.2.2.2.2 (by decide)).1,
   ((claim_C3_amended_repository_equivalence
      ⟨[⟨1, "Иван", "+79991234567"⟩], [], 2, 1⟩
      "Барсик" "Кошка" "Британская" "" 3 2).2.2.2.2.2 (by decide)).2⟩

/-! ### Claim C5 -/

/-- Counterexample to claim C5 as stated: on the fresh (empty) database and
owner id 1, zad2's `get_pets_by_owner` raises the not-found `ValueError`
instead of returning the (here empty) list of matching pet rows. -/
theorem claim_C5_counterexample :
    zad2_get_pets_by_owner ⟨[], [], 1, 1⟩ 1 = .error (.ownerNotFound 1) ∧
    (⟨[], [], 1, 1⟩ : PetsDB).pets.filter
      (fun p => p.owner_id == (1 : Int)) = [] := ⟨rfl, rfl⟩

/-- Claim C5, amended: zad1's `get_pets_by_owner i` returns, for every
database state, exactly the pet rows whose stored `owner_id` equals `i`
(a permutation of the filtered table, every returned row matching), sorted
ascending by pet name; zad2's agrees with it whenever some owner row has id
`i`, and raises the not-found `ValueError` when none does. -/
theorem claim_C5_amended_get_pets_by_owner (db : PetsDB) (oid : Int) :
    (zad1_get_pets_by_owner db oid).Perm
      (db.pets.filter (fun p => p.owner_id == oid)) ∧
    List.Sorted petNameLe (zad1_get_pets_by_owner db oid) ∧
    (∀ p ∈ zad1_get_pets_by_owner db oid, p.owner_id = oid) ∧
    ((∃ o ∈ db.owners, o.id = oid) →
      zad2_get_pets_by_owner db oid = .ok (zad1_get_pets_by_owner db oid)) ∧
    ((∀ o ∈ db.owners, o.id ≠ oid) →
      zad2_get_pets_by_owner db oid = .error (.ownerNotFound oid)) := by
  have hperm := List.perm_insertionSort petNameLe
    (db.pets.filter (fun p => p.owner_id == oid))
  refine ⟨hperm, List.sorted_insertionSort _ _, ?_, ?_, ?_⟩
  · intro p hp
    have hmem := hperm.mem_iff.mp hp
    simpa using (List.mem_filter.mp hmem).2
  · rintro ⟨o, ho, hid⟩
    cases hf : db.owners.find? (fun o => o.id == oid) with
    | none =>
        exact absurd hid (by simpa using List.find?_eq_none.mp hf o ho)
    | some o2 => simp [zad2_get_pets_by_owner, zad1_get_pets_by_owner, hf]
  · intro hnone
    have hfind : db.owners.find? (fun o => o.id == oid) = none := by
      rw [List.find?_eq_none]
      intro o ho
      simpa using hnone o ho
    simp [zad2_get_pets_by_owner, hfind]

/-- Witness for the amended claim C5 at a database with one owner and one
matching pet. -/
theorem claim_C5_witness :
    (zad1_get_pets_by_owner
        ⟨[⟨1, "Иван", "+79991234567"⟩],
         [⟨1, "Барсик", "Кошка", "Британская", 3, 1⟩], 2, 2⟩ 1).Perm
      ((⟨[⟨1, "Иван", "+79991234567"⟩],
         [⟨1, "Барсик", "Кошка", "Британская", 3, 1⟩], 2, 2⟩ : PetsDB).pets.filter
        (fun p => p.owner_id == (1 : Int))) ∧
    zad2_get_pets_by_owner
        ⟨[⟨1, "Иван", "+79991234567"⟩],
         [⟨1, "Барсик", "Кошка", "Британская", 3, 1⟩], 2, 2⟩ 1 =
      .ok (zad1_get_pets_by_owner
        ⟨[⟨1, "Иван", "+79991234567"⟩],
         [⟨1, "Барсик", "Кошка", "Британская", 3, 1⟩], 2, 2⟩ 1) :=
  ⟨(claim_C5_amended_get_pets_by_owner
      ⟨[⟨1, "Иван", "+79991234567"⟩],
       [⟨1, "Барсик", "Кошка", "Британская", 3, 1⟩], 2, 2⟩ 1).1,
   (claim_C5_amended_get_pets_by_owner
      ⟨[⟨1, "Иван", "+79991234567"⟩],
       [⟨1, "Барсик", "Кошка", "Британская", 3, 1⟩], 2, 2⟩ 1).2.2.2.1 (by decide)⟩

/-! ### Claim C7 -/

/-- Claim C7: on the empty record list each formatter prints exactly its
one-line empty message: no border characters (plus, dash, pipe) occur in
the output, and none of the entity's header labels occur as substrings. -/
theorem claim_C7_empty_list_formatting :
    display_owners [] = ["Список владельцев пуст."] ∧
    display_pets [] true = ["Список животных пуст."] ∧
    display_pets [] false = ["Список животных пуст."] ∧
    display_workers [] = ["Список работников пуст."] ∧
    (render (display_owners [])).data.all
      (fun c => !(c == '+' || c == '-' || c == '|')) = true ∧
    (render (display_pets [] true)).data.all
      (fun c => !(c == '+' || c == '-' || c == '|')) = true ∧
    (render (display_workers [])).data.all
      (fun c => !(c == '+' || c == '-' || c == '|')) = true ∧
    scontainsB (render (display_owners [])) "ID" = false ∧
    scontainsB (render (display_owners [])) "Имя владельца" = false ∧
    scontainsB (render (display_owners [])) "Телефон" = false ∧
    scontainsB (render (display_pets [] true)) "ID" = false ∧
    scontainsB (render (display_pets [] true)) "Кличка" = false ∧
    scontainsB (render (display_pets [] true)) "Вид" = false ∧
    scontainsB (render (display_pets [] true)) "Порода" = false ∧
    scontainsB (render (display_pets [] true)) "Возраст" = false ∧
    scontainsB (render (display_pets [] true)) "ID владельца" = false ∧
    scontainsB (render (display_workers [])) "№" = false ∧
    scontainsB (render (display_workers [])) "Ф.И.О." = false ∧
    scontainsB (render (display_workers [])) "Должность" = false ∧
    scontainsB (render (display_workers [])) "Год" = false := by decide

/-! ### Row containment lemmas for claim C8 -/

theorem ownerRowStr_contains (a b c : String) :
    SContains (ownerRowStr a b c) a ∧
    SContains (ownerRowStr a b c) b ∧
    SContains (ownerRowStr a b c) c := by
  refine ⟨scontains_trans ?_ (scontains_center 6 a),
          scontains_trans ?_ (scontains_center 25 b),
          scontains_trans ?_ (scontains_center 15 c)⟩
  all_goals
    unfold SContains ownerRowStr
    simp only [string_data_append, List.append_assoc]
    repeat first
      | exact infix_part_here _ _ _
      | apply infix_part_there

theorem petRow6_contains (a b c d e f : String) :
    SContains (petRow6 a b c d e f) a ∧
    SContains (petRow6 a b c d e f) b ∧
    SContains (petRow6 a b c d e f) c ∧
    SContains (petRow6 a b c d e f) d ∧
    SContains (petRow6 a b c d e f) e ∧
    SContains (petRow6 a b c d e f) f := by
  refine ⟨scontains_trans ?_ (scontains_center 6 a),
          scontains_trans ?_ (scontains_center 15 b),
          scontains_trans ?_ (scontains_center 15 c),
          scontains_trans ?_ (scontains_center 20 d),
          scontains_trans ?_ (scontains_center 6 e),
          scontains_trans ?_ (scontains_center 15 f)⟩
  all_goals
    unfold SContains petRow6
    simp only [string_data_append, List.append_assoc]
    repeat first
      | exact infix_part_here _ _ _
      | apply infix_part_there

theorem workerRowStr_contains (a b c d : String) :
    SContains (workerRowStr a b c d) a ∧
    SContains (workerRowStr a b c d) b ∧
    SContains (workerRowStr a b c d) c ∧
    SContains (workerRowStr a b c d) d := by
  refine ⟨scontains_trans ?_ (scontains_center 6 a),
          scontains_trans ?_ (scontains_center 30 b),
          scontains_trans ?_ (scontains_center 20 c),
          scontains_trans ?_ (scontains_center 8 d)⟩
  all_goals
    unfold SContains workerRowStr
    simp only [string_data_append, List.append_assoc]
    repeat first
      | exact infix_part_here _ _ _
      | apply infix_part_there

theorem display_owners_row_mem {owners : List Owner} {o : Owner}
    (h : o ∈ owners) :
    ownerRowStr (toString o.id) o.name o.phone ∈ display_owners owners := by
  cases owners with
  | nil => cases h
  | cons x xs =>
      unfold display_owners
      exact List.mem_append_left _
        (List.mem_append_right _ (List.mem_map_of_mem _ h))

theorem display_owners_header_mem {owners : List Owner} (h : owners ≠ []) :
    ownerRowStr "ID" "Имя владельца" "Телефон" ∈ display_owners owners := by
  cases owners with
  | nil => exact absurd rfl h
  | cons x xs =>
      unfold display_owners
      exact List.mem_append_left _ (List.mem_append_left _ (by simp))

theorem display_pets_row_mem {pets : List Pet} {p : Pet} (h : p ∈ pets) :
    petRow6 (toString p.id) p.name p.species p.breed (toString p.age)
      (toString p.owner_id) ∈ display_pets pets true := by
  cases pets with
  | nil => cases h
  | cons x xs =>
      unfold display_pets
      exact List.mem_append_left _
        (List.mem_append_right _ (List.mem_map_of_mem _ h))

theorem display_pets_header_mem {pets : List Pet} (h : pets ≠ []) :
    petRow6 "ID" "Кличка" "Вид" "Порода" "Возраст" "ID владельца" ∈
      display_pets pets true := by
  cases pets with
  | nil => exact absurd rfl h
  | cons x xs =>
      unfold display_pets
      exact List.mem_append_left _ (List.mem_append_left _ (by simp))

theorem display_workers_row_mem {workers : List Worker} {w : Worker}
    (h : w ∈ workers) :
    ∃ i : Nat,
      workerRowStr (toString (i + 1)) w.name w.post (toString w.year) ∈
        display_workers workers := by
  obtain ⟨i, hi, hget⟩ := List.getElem_of_mem h
  refine ⟨i, ?_⟩
  cases workers with
  | nil => cases h
  | cons x xs =>
      unfold display_workers
      refine List.mem_append_left _ (List.mem_append_right _ ?_)
      refine List.mem_map.mpr ⟨(i, w), ?_, rfl⟩
      rw [List.mem_iff_getElem?]
      exact ⟨i, by rw [List.getElem?_enum, List.getElem?_eq_getElem hi, hget]; rfl⟩

theorem display_workers_header_mem {workers : List Worker}
    (h : workers ≠ []) :
    workerRowStr "№" "Ф.И.О." "Должность" "Год" ∈ display_workers workers := by
  cases workers with
  | nil => exact absurd rfl h
  | cons x xs =>
      unfold display_workers
      exact List.mem_append_left _ (List.mem_append_left _ (by simp))

/-! ### Claim C8 -/

/-- Claim C8: for every non-empty record list, the formatter output
contains the string form of every field value of every record as a
substring, and contains every header label of the entity's table as a
substring (owners table, six-column pets table as printed by the
`display_pets` command, and workers table). -/
theorem claim_C8_nonempty_formatting_contains_fields_and_headers
    (owners : List Owner) (pets : List Pet) (workers : List Worker)
    (ho : owners ≠ []) (hp : pets ≠ []) (hw : workers ≠ []) :
    ((∀ o ∈ owners,
        SContains (render (display_owners owners)) (toString o.id) ∧
        SContains (render (display_owners owners)) o.name ∧
        SContains (render (display_owners owners)) o.phone) ∧
      SContains (render (display_owners owners)) "ID" ∧
      SContains (render (display_owners owners)) "Имя владельца" ∧
      SContains (render (display_owners owners)) "Телефон") ∧
    ((∀ p ∈ pets,
        SContains (render (display_pets pets true)) (toString p.id) ∧
        SContains (render (display_pets pets true)) p.name ∧
        SContains (render (display_pets pets true)) p.species ∧
        SContains (render (display_pets pets true)) p.breed ∧
        SContains (render (display_pets pets true)) (toString p.age) ∧
        SContains (render (display_pets pets true)) (toString p.owner_id)) ∧
      SContains (render (display_pets pets true)) "ID" ∧
      SContains (render (display_pets pets true)) "Кличка" ∧
      SContains (render (display_pets pets true)) "Вид" ∧
      SContains (render (display_pets pets true)) "Порода" ∧
      SContains (render (display_pets pets true)) "Возраст" ∧
      SContains (render (display_pets pets true)) "ID владельца") ∧
    ((∀ w ∈ workers,
        SContains (render (display_workers workers)) w.name ∧
        SContains (render (display_workers workers)) w.post ∧
        SContains (render (display_workers workers)) (toString w.year)) ∧
      SContains (render (display_workers workers)) "№" ∧
      SContains (render (display_workers workers)) "Ф.И.О." ∧
      SContains (render (display_workers workers)) "Должность" ∧
      SContains (render (display_workers workers)) "Год") := by
  refine ⟨⟨?_, ?_, ?_, ?_⟩, ⟨?_, ?_, ?_, ?_, ?_, ?_, ?_⟩, ⟨?_, ?_, ?_, ?_, ?_⟩⟩
  · intro o hmem
    have hrow := scontains_render_of_mem (display_owners_row_mem hmem)
    have hc := ownerRowStr_contains (toString o.id) o.name o.phone
    exact ⟨scontains_trans hrow hc.1, scontains_trans hrow hc.2.1,
      scontains_trans hrow hc.2.2⟩
  all_goals
    try
      first
      | (have hrow := scontains_render_of_mem (display_owners_header_mem ho)
         have hc := ownerRowStr_contains "ID" "Имя владельца" "Телефон"
         first
         | exact scontains_trans hrow hc.1
         | exact scontains_trans hrow hc.2.1
         | exact scontains_trans hrow hc.2.2)
  · intro p hmem
    have hrow := scontains_render_of_mem (display_pets_row_mem hmem)
    have hc := petRow6_contains (toString p.id) p.name p.species p.breed
      (toString p.age) (toString p.owner_id)
    exact ⟨scontains_trans hrow hc.1, scontains_trans hrow hc.2.1,
      scontains_trans hrow hc.2.2.1, scontains_trans hrow hc.2.2.2.1,
      scontains_trans hrow hc.2.2.2.2.1, scontains_trans hrow hc.2.2.2.2.2⟩
  all_goals
    try
      first
      | (have hrow := scontains_render_of_mem (display_pets_header_mem hp)
         have hc := petRow6_contains "ID" "Кличка" "Вид" "Порода" "Возраст"
           "ID владельца"
         first
         | exact scontains_trans hrow hc.1
         | exact scontains_trans hrow hc.2.1
         | exact scontains_trans hrow hc.2.2.1
         | exact scontains_trans hrow hc.2.2.2.1
         | exact scontains_trans hrow hc.2.2.2.2.1
         | exact scontains_trans hrow hc.2.2.2.2.2)
  · intro w hmem
    obtain ⟨i, hmem2⟩ := display_workers_row_mem hmem
    have hrow := scontains_render_of_mem hmem2
    have hc := workerRowStr_contains (toString (i + 1)) w.name w.post
      (toString w.year)
    exact ⟨scontains_trans hrow hc.2.1, scontains_trans hrow hc.2.2.1,
      scontains_trans hrow hc.2.2.2⟩
  all_goals
    have hrow := scontains_render_of_mem (display_workers_header_mem hw)
    have hc := workerRowStr_contains "№" "Ф.И.О." "Должность" "Год"
    first
    | exact scontains_trans hrow hc.1
    | exact scontains_trans hrow hc.2.1
    | exact scontains_trans hrow hc.2.2.1
    | exact scontains_trans hrow hc.2.2.2

/-- Witness for claim C8 at concrete one-record lists. -/
theorem claim_C8_witness :
    SContains (render (display_owners [⟨1, "Иван Иванов", "+79991234567"⟩]))
      "Иван Иванов" ∧
    SContains (render (display_pets
      [⟨1, "Барсик", "Кошка", "Британская", 3, 1⟩] true)) "Барсик" ∧
    SContains (render (display_workers [⟨"Иванов", "Инженер", 2015⟩]))
      "Инженер" ∧
    SContains (render (display_owners [⟨1, "Иван Иванов", "+79991234567"⟩]))
      "ID" :=
  ⟨((claim_C8_nonempty_formatting_contains_fields_and_headers
      [⟨1, "Иван Иванов", "+79991234567"⟩]
      [⟨1, "Барсик", "Кошка", "Британская", 3, 1⟩]
      [⟨"Иванов", "Инженер", 2015⟩]
      (by decide) (by decide) (by decide)).1.1
      ⟨1, "Иван Иванов", "+79991234567"⟩ (by simp)).2.1,
   ((claim_C8_nonempty_formatting_contains_fields_and_headers
      [⟨1, "Иван Иванов", "+79991234567"⟩]
      [⟨1, "Барсик", "Кошка", "Британская", 3, 1⟩]
      [⟨"Иванов", "Инженер", 2015⟩]
      (by decide) (by decide) (by decide)).2.1.1
      ⟨1, "Барсик", "Кошка", "Британская", 3, 1⟩ (by simp)).2.1,
   ((claim_C8_nonempty_formatting_contains_fields_and_headers
      [⟨1, "Иван Иванов", "+79991234567"⟩]
      [⟨1, "Барсик", "Кошка", "Британская", 3, 1⟩]
      [⟨"Иванов", "Инженер", 2015⟩]
      (by decide) (by decide) (by decide)).2.2.1
      ⟨"Иванов", "Инженер", 2015⟩ (by simp)).2.1,
   (claim_C8_nonempty_formatting_contains_fields_and_headers
      [⟨1, "Иван Иванов", "+79991234567"⟩]
      [⟨1, "Барсик", "Кошка", "Британская", 3, 1⟩]
      [⟨"Иванов", "Инженер", 2015⟩]
      (by decide) (by decide) (by decide)).1.2.1⟩

/-! ### Claim C9 -/

/-- Claim C9: in `display_workers`, the first column of the k-th data row
(0-based k, printed after the three heading lines) is the 1-based position
`k + 1` of the record in the input list — `enumerate(workers, 1)` — not any
stored database id (the `Worker` record carries none); the rest of the row
depends only on the record at that position. -/
theorem claim_C9_display_workers_numbers_rows_by_position
    (ws : List Worker) (k : Nat) (hk : k < ws.length) :
    (display_workers ws)[3 + k]? =
      some (workerRowStr (toString (k + 1)) (ws[k]).name (ws[k]).post
        (toString (ws[k]).year)) := by
  cases ws with
  | nil => simp at hk
  | cons x xs =>
      have e1 : display_workers (x :: xs) =
          ([workerLine, workerRowStr "№" "Ф.И.О." "Должность" "Год",
            workerLine] ++
            ((x :: xs).enum.map (fun iw =>
              workerRowStr (toString (iw.1 + 1)) iw.2.name iw.2.post
                (toString iw.2.year)))) ++ [workerLine] := rfl
      have hk2 : k < xs.length + 1 := by simpa using hk
      have hlen : 3 + k <
          ([workerLine, workerRowStr "№" "Ф.И.О." "Должность" "Год",
            workerLine] ++
            ((x :: xs).enum.map (fun iw =>
              workerRowStr (toString (iw.1 + 1)) iw.2.name iw.2.post
                (toString iw.2.year)))).length := by
        simp only [List.length_append, List.length_map, List.length_cons,
          List.length_nil, List.enum_length]
        omega
      have h3 : 3 + k - [workerLine,
          workerRowStr "№" "Ф.И.О." "Должность" "Год",
          workerLine].length = k := by
        simp only [List.length_cons, List.length_nil]
        omega
      rw [e1, List.getElem?_append, if_pos hlen,
        List.getElem?_append_right (by simp : 3 ≤ 3 + k), h3,
        List.getElem?_map, List.getElem?_enum,
        List.getElem?_eq_getElem hk]
      rfl

/-- Witness for claim C9 at a one-element list and row index 0. -/
theorem claim_C9_witness :
    (0 : Nat) < ([⟨"Иванов", "Инженер", 2015⟩] : List Worker).length ∧
    (display_workers [⟨"Иванов", "Инженер", 2015⟩])[3 + 0]? =
      some (workerRowStr (toString (0 + 1)) "Иванов" "Инженер"
        (toString (2015 : Int))) :=
  ⟨by decide,
   claim_C9_display_workers_numbers_rows_by_position
     [⟨"Иванов", "Инженер", 2015⟩] 0 (by decide)⟩

end OOPlab
